import Mathlib

/-!
Verification development for the token-aware prompt construction and
story-content analysis core of the storybook repository.

The TypeScript sources embedded here are
`src/app/utils/prompts/PromptManager.ts` (tokenizer adapter, prompt budget
assembler) and `src/app/utils/prompts/storyAnalysis.ts` (story content
analyzer).  JavaScript strings are modelled as Lean `String`
(character-level; the inputs of interest are ASCII), JS numbers used as
counts are `Nat`, JS numbers used in budget arithmetic (which can go
negative) are `Int`, and the floating point expressions
`Math.floor(n * 0.6)`, `Math.floor(n * 0.9)`, `Math.floor(n * 0.75)` are
modelled by the exact rational floors `3*n/5`, `9*n/10`, `3*n/4` (the two
agree for every list length the doubles represent exactly).

The `tiktoken` tokenizer is an external third-party dependency; the class
stores it behind the interface `encode : string -> number[]`,
`decode : number[] -> string`.  It is modelled by the `Tokenizer`
structure, and instantiated with the character-level tokenizer `charTok`
(one token per character, decode inverts encode) for concrete evaluation.
-/

namespace Storybook

/-! Section: Character and substring utilities (JS regex/string primitives) -/

/-- JS `\w` word character: `[A-Za-z0-9_]`. -/
def isWordChar (c : Char) : Bool :=
  c.isAlphanum || c == '_'

/-- JS `String.prototype.toLowerCase` restricted to ASCII. -/
def lowerStr (s : String) : String :=
  String.mk (s.data.map Char.toLower)

/-- Does `needle` occur at the head of `l`? -/
def leadsWith : List Char → List Char → Bool
  | [], _ => true
  | _ :: _, [] => false
  | a :: as, b :: bs => a == b && leadsWith as bs

/-- JS `String.prototype.indexOf`: index of the first occurrence of
`needle` in `l`, `none` for `-1`. -/
def subIndex (needle : List Char) : List Char → Option Nat
  | [] => if needle.isEmpty then some 0 else none
  | c :: t => if leadsWith needle (c :: t) then some 0 else (subIndex needle t).map (· + 1)

/-- JS `String.prototype.includes`. -/
def includesStr (hay needle : String) : Bool :=
  (subIndex needle.data hay.data).isSome

/-! Section: Tokenizer adapter (`PromptManager.ts`, constructor + `countTokens` +
`truncateToTokenLimit`) -/

/-- Interface of the external `tiktoken` tokenizer held by `PromptManager`. -/
structure Tokenizer where
  encode : String → List Nat
  decode : List Nat → String

/-- Character-level model tokenizer: one token per character. -/
def charTok : Tokenizer where
  encode s := s.data.map Char.toNat
  decode l := String.mk (l.map Char.ofNat)

/-- `countTokens(text)`: `if (!text) return 0; return this.tokenizer.encode(text).length`. -/
def countTokens (tok : Tokenizer) (text : String) : Nat :=
  if text = "" then 0 else (tok.encode text).length

/-- The literal appended by `truncateToTokenLimit` on lossy truncation. -/
def truncationMarker : String := " [truncated]"

/-- `truncateToTokenLimit(text, maxTokens)`: return `text` unchanged when its
token count fits, otherwise decode the first `maxTokens` tokens and append
the visible marker. -/
def truncateToTokenLimit (tok : Tokenizer) (text : String) (maxTokens : Nat) : String :=
  if text = "" then ""
  else
    let tokens := tok.encode text
    if tokens.length ≤ maxTokens then text
    else tok.decode (tokens.take maxTokens) ++ truncationMarker

/-! Section: Template variables (`setTemplateVariable(s)`, `applyTemplateVariables`) -/

/-- The manager's `templateVariables` record, as an association list where
the head is the most recent write (JS object key update / spread overwrite). -/
def lookupVar (vars : List (String × String)) (k : String) : Option String :=
  (vars.find? (fun kv => kv.1 == k)).map (·.2)

/-- `setTemplateVariable(key, value)`: `this.templateVariables[key] = value`. -/
def setTemplateVariable (vars : List (String × String)) (key value : String) :
    List (String × String) :=
  (key, value) :: vars

/-- `setTemplateVariables(variables)`: spread-merge, later entries overwrite. -/
def setTemplateVariables (vars : List (String × String))
    (newVars : List (String × String)) : List (String × String) :=
  newVars.foldl (fun acc kv => kv :: acc) vars

/-- A record state in which `key` was never set. -/
def eraseKey (vars : List (String × String)) (key : String) : List (String × String) :=
  vars.filter (fun kv => kv.1 != key)

/-- The placeholder text `\x7b\x7bkey\x7d\x7d` left verbatim. -/
def placeholderFor (key : String) : String :=
  "\x7b\x7b" ++ key ++ "\x7d\x7d"

/-- The replacement callback of `applyTemplateVariables`:
`this.templateVariables[key] || placeholder` (the empty string is falsy). -/
def applyVar (vars : List (String × String)) (key : String) : String :=
  match lookupVar vars key with
  | some v => if v = "" then placeholderFor key else v
  | none => placeholderFor key

/-- One left-to-right pass of `text.replace(/\x7b\x7b(\w+)\x7d\x7d/g, cb)`:
at each position try to match two opening braces, a nonempty run of word
characters, and two closing braces; on a match emit the callback result and
continue after the match, otherwise emit one character and continue.  The
fuel argument (initially the list length, an upper bound on the number of
steps) makes the recursion structural. -/
def substFuel (repl : String → String) : Nat → List Char → List Char
  | 0, l => l
  | _ + 1, [] => []
  | fuel + 1, c :: cs =>
    if c = '\x7b' then
      match cs with
      | c2 :: rest =>
        if c2 = '\x7b' then
          let key := rest.takeWhile isWordChar
          if key.isEmpty then c :: substFuel repl fuel cs
          else
            match rest.dropWhile isWordChar with
            | d :: e :: rest2 =>
              if d = '\x7d' && e = '\x7d' then
                (repl (String.mk key)).data ++ substFuel repl fuel rest2
              else c :: substFuel repl fuel cs
            | _ => c :: substFuel repl fuel cs
        else c :: substFuel repl fuel cs
      | [] => c :: substFuel repl fuel cs
    else c :: substFuel repl fuel cs

/-- `applyTemplateVariables(text)`. -/
def applyTemplateVariables (vars : List (String × String)) (text : String) : String :=
  String.mk (substFuel (applyVar vars) text.data.length text.data)

/-! Section: Prompt component model and budget assembler (`PromptManager.ts`) -/

/-- `PromptComponentType` string union. -/
inductive PromptComponentType where
  | system
  | instruction
  | context
  | «example»
  | user_input
  | formatting
deriving DecidableEq, Repr

/-- `PromptComponent` interface.  The optional `required` flag is collapsed
to `Bool` (`undefined` is falsy in every use site) and the optional
`priority` to its `|| 0` default, which coincide in all uses. -/
structure PromptComponent where
  id : String
  type : PromptComponentType
  content : String
  required : Bool
  maxTokens : Option Nat
  priority : Int
deriving DecidableEq, Repr

/-- `TokenBudget` interface.  Optional fields are `Option Int`. -/
structure TokenBudget where
  total : Int
  system : Option Int
  instruction : Option Int
  context : Option Int
  «example» : Option Int
  user_input : Option Int
  formatting : Option Int
  reserved : Option Int
deriving DecidableEq, Repr

/-- The per-type budget field looked up by `this.tokenBudget[component.type]`. -/
def typeBudgetField (tb : TokenBudget) : PromptComponentType → Option Int
  | .system => tb.system
  | .instruction => tb.instruction
  | .context => tb.context
  | .«example» => tb.«example»
  | .user_input => tb.user_input
  | .formatting => tb.formatting

/-- `this.tokenBudget[component.type] || Infinity`: an absent field and the
falsy value `0` both become `Infinity`, modelled as `none`. -/
def effTypeBudget (tb : TokenBudget) (t : PromptComponentType) : Option Int :=
  match typeBudgetField tb t with
  | some v => if v = 0 then none else some v
  | none => none

/-- One element of `BuiltPrompt.components` (the audit trail). -/
structure AuditEntry where
  id : String
  type : PromptComponentType
  tokens : Nat
  included : Bool
deriving DecidableEq, Repr

/-- `BuiltPrompt` result. -/
structure BuiltPrompt where
  systemPrompt : String
  userPrompt : String
  systemTokens : Nat
  userTokens : Nat
  totalTokens : Nat
  components : List AuditEntry
deriving DecidableEq, Repr

/-- The mutable locals of the `buildPrompt` loop. -/
structure BuildState where
  systemComponents : List PromptComponent
  userComponents : List PromptComponent
  systemTokenCount : Nat
  userTokenCount : Nat
  includedComponents : List AuditEntry
deriving Repr

/-- `truncateToTokenLimit` against a possibly infinite (`none`) budget:
`tokens.length <= Infinity` always holds, so the text is returned as is. -/
def truncateOpt (tok : Tokenizer) (text : String) : Option Nat → String
  | none => text
  | some m => truncateToTokenLimit tok text m

/-- The processed content of a component inside the `buildPrompt` loop. -/
def processedContentOf (vars : List (String × String)) (c : PromptComponent) : String :=
  applyTemplateVariables vars c.content

/-- `canIncludeInSystem`: a system component whose tokens fit under the
per-type system sub-budget (`Infinity` when unset). -/
def canIncludeInSystem (tok : Tokenizer) (tb : TokenBudget) (vars : List (String × String))
    (st : BuildState) (c : PromptComponent) : Bool :=
  c.type == .system &&
    (match effTypeBudget tb c.type with
     | none => true
     | some m =>
       decide ((st.systemTokenCount + countTokens tok (processedContentOf vars c) : Int) ≤ m))

/-- `canIncludeInUser`: a non-system component whose tokens fit in the shared
pool `total - systemTokenCount - reserved`. -/
def canIncludeInUser (tok : Tokenizer) (tb : TokenBudget) (vars : List (String × String))
    (st : BuildState) (c : PromptComponent) : Bool :=
  c.type != .system &&
    decide ((st.userTokenCount + countTokens tok (processedContentOf vars c) : Int) ≤
      tb.total - st.systemTokenCount - (tb.reserved.getD 0))

/-- One iteration of the `buildPrompt` component loop: template substitution,
token counting, admissibility for the system sub-budget or the shared user
pool, then the required-truncation / include / drop three-way branch.  All
comparisons are in `Int`, as in JS where `total - system - reserved` can be
negative. -/
def processComponent (tok : Tokenizer) (tb : TokenBudget) (vars : List (String × String))
    (st : BuildState) (c : PromptComponent) : BuildState :=
  let processedContent := processedContentOf vars c
  let tokenCount := countTokens tok processedContent
  let maxTypeTokens := effTypeBudget tb c.type
  if c.required && !canIncludeInSystem tok tb vars st c && !canIncludeInUser tok tb vars st c then
    let availableBudget : Option Nat :=
      if c.type == .system then
        maxTypeTokens.map (fun m => (max 0 (m - (st.systemTokenCount : Int))).toNat)
      else
        some ((max 0 (tb.total - (st.systemTokenCount : Int) - (st.userTokenCount : Int) -
          (tb.reserved.getD 0))).toNat)
    let truncatedContent := truncateOpt tok processedContent availableBudget
    let truncatedTokenCount := countTokens tok truncatedContent
    if c.type == .system then
      { st with
        systemComponents := st.systemComponents ++ [{ c with content := truncatedContent }],
        systemTokenCount := st.systemTokenCount + truncatedTokenCount,
        includedComponents := st.includedComponents ++
          [⟨c.id, c.type, truncatedTokenCount, true⟩] }
    else
      { st with
        userComponents := st.userComponents ++ [{ c with content := truncatedContent }],
        userTokenCount := st.userTokenCount + truncatedTokenCount,
        includedComponents := st.includedComponents ++
          [⟨c.id, c.type, truncatedTokenCount, true⟩] }
  else if canIncludeInSystem tok tb vars st c || canIncludeInUser tok tb vars st c then
    if c.type == .system then
      { st with
        systemComponents := st.systemComponents ++ [{ c with content := processedContent }],
        systemTokenCount := st.systemTokenCount + tokenCount,
        includedComponents := st.includedComponents ++ [⟨c.id, c.type, tokenCount, true⟩] }
    else
      { st with
        userComponents := st.userComponents ++ [{ c with content := processedContent }],
        userTokenCount := st.userTokenCount + tokenCount,
        includedComponents := st.includedComponents ++ [⟨c.id, c.type, tokenCount, true⟩] }
  else
    { st with
      includedComponents := st.includedComponents ++ [⟨c.id, c.type, tokenCount, false⟩] }

/-- The stable descending-priority order of
`[...this.components].sort((a, b) => (b.priority || 0) - (a.priority || 0))`
(JS `Array.prototype.sort` is stable; insertion sort realizes the same
unique stable order). -/
def sortByPriority (comps : List PromptComponent) : List PromptComponent :=
  List.insertionSort (fun a b => b.priority ≤ a.priority) comps

/-- `buildPrompt()`. -/
def buildPrompt (tok : Tokenizer) (tb : TokenBudget) (vars : List (String × String))
    (comps : List PromptComponent) : BuiltPrompt :=
  let sortedComponents := sortByPriority comps
  let st := sortedComponents.foldl (processComponent tok tb vars) ⟨[], [], 0, 0, []⟩
  { systemPrompt := String.intercalate "\n\n" (st.systemComponents.map (·.content))
    userPrompt := String.intercalate "\n\n" (st.userComponents.map (·.content))
    systemTokens := st.systemTokenCount
    userTokens := st.userTokenCount
    totalTokens := st.systemTokenCount + st.userTokenCount
    components := st.includedComponents }

/-- `addComponent(component)`: duplicate-id check, then push.  The thrown
`Error` is the `Except.error` case; since the throw precedes the push, an
erroring call leaves the component list untouched. -/
def addComponent (comps : List PromptComponent) (c : PromptComponent) :
    Except String (List PromptComponent) :=
  if comps.any (fun x => x.id == c.id) then
    .error ("Component with ID \"" ++ c.id ++ "\" already exists")
  else
    .ok (comps ++ [c])

/-- The state of `this.components` after `addComponent` under JS exception
semantics: unchanged when the call throws. -/
def addComponentRun (comps : List PromptComponent) (c : PromptComponent) :
    List PromptComponent :=
  match addComponent comps c with
  | .ok l => l
  | .error _ => comps

/-- `addComponents(components)`: `components.forEach(c => this.addComponent(c))`
under JS exception semantics — on the first duplicate the exception
propagates and the components added so far remain. -/
def addComponentsRun (comps : List PromptComponent) :
    List PromptComponent → List PromptComponent × Option String
  | [] => (comps, none)
  | x :: xs =>
    match addComponent comps x with
    | .ok l => addComponentsRun l xs
    | .error e => (comps, some e)

/-- Sum of recorded token counts over included audit entries whose type
satisfies `p`. -/
def includedTokensWhere (p : PromptComponentType → Bool) (l : List AuditEntry) : Nat :=
  ((l.filter (fun en => en.included && p en.type)).map (·.tokens)).sum

/-! Section: Story content analyzer (`storyAnalysis.ts`) -/

/-- Narrative element `type` string union. -/
inductive NEType where
  | introduction
  | action
  | climax
  | resolution
deriving DecidableEq, Repr

/-- `NarrativeElement` interface. -/
structure NarrativeElement where
  paragraphIndex : Nat
  type : NEType
  importance : Nat
  characters : List String
  setting : String
  action : String
  description : String
  emotionalTone : String
deriving DecidableEq, Repr

/-- `CharacterDescription` interface. -/
structure CharacterDescription where
  name : String
  description : String
  firstAppearance : Nat
  importance : Nat
deriving DecidableEq, Repr

/-- The stoplist of common capitalized non-names. -/
def commonWords : List String :=
  ["The", "A", "An", "It", "This", "That", "Then", "But", "And"]

/-- All matches of the JS global regex `\b[A-Z][a-z]+\b`: at a word
boundary, an ASCII uppercase letter followed by a maximal nonempty run of
ASCII lowercase letters, ended by a word boundary; scanning resumes after
each match.  `atB` tracks whether the previous character was a non-word
character (or the start of the string); the fuel (initially the list
length) makes the recursion structural. -/
def scanNames : Nat → Bool → List Char → List String
  | 0, _, _ => []
  | _ + 1, _, [] => []
  | fuel + 1, atB, c :: cs =>
    if atB && c.isUpper then
      let low := cs.takeWhile Char.isLower
      if low.isEmpty then scanNames fuel (!isWordChar c) cs
      else
        match cs.dropWhile Char.isLower with
        | [] => [String.mk (c :: low)]
        | d :: rest =>
          if isWordChar d then scanNames fuel false cs
          else String.mk (c :: low) :: scanNames fuel false (d :: rest)
    else scanNames fuel (!isWordChar c) cs

/-- `extractNamesFromParagraph(paragraph)`. -/
def extractNamesFromParagraph (p : String) : List String :=
  (scanNames p.data.length true p.data).filter (fun n => !(commonWords.contains n))

/-- The six locative indicators of `extractSettingFromParagraph`. -/
def settingIndicators : List String :=
  ["in the", "at the", "inside", "outside", "in a", "near the"]

/-- `extractSettingFromParagraph(paragraph)`: the first indicator found in
the lowercased paragraph yields the substring from its position to the next
period (or the end of the paragraph), trimmed. -/
def extractSettingFromParagraph (p : String) : String :=
  findSettingIn p settingIndicators
where
  /-- The loop over indicators. -/
  findSettingIn (p : String) : List String → String
    | [] => ""
    | ind :: rest =>
      match subIndex ind.data (lowerStr p).data with
      | some position =>
        let stop :=
          match (subIndex ['.'] (p.data.drop position)).map (· + position) with
          | some e => if position < e then e else p.length
          | none => p.length
        (String.mk ((p.data.drop position).take (stop - position))).trim
      | none => findSettingIn p rest

/-- Verb alternation of the first action pattern
`\b(ran|jumped|flew|swam|climbed|found|discovered|opened|closed|said|shouted|whispered)[^.!?]+`. -/
def actionVerbs1 : List String :=
  ["ran", "jumped", "flew", "swam", "climbed", "found", "discovered", "opened",
   "closed", "said", "shouted", "whispered"]

/-- Verb alternation of `\b(looked|saw|heard|felt|touched|smelled|tasted)[^.!?]+`. -/
def actionVerbs2 : List String :=
  ["looked", "saw", "heard", "felt", "touched", "smelled", "tasted"]

/-- Verb alternation of `\b(went|came|moved|traveled|journeyed|walked)[^.!?]+`. -/
def actionVerbs3 : List String :=
  ["went", "came", "moved", "traveled", "journeyed", "walked"]

/-- Try each alternation verb (in order) at the current position: the verb
must match case-insensitively and be followed by a nonempty run of
characters other than `.`, `!`, `?`; the match text keeps the original
casing. -/
def tryVerbs (l : List Char) : List String → Option String
  | [] => none
  | v :: vs =>
    if (l.take v.length).map Char.toLower = v.data then
      let run := (l.drop v.length).takeWhile (fun c => !(c == '.' || c == '!' || c == '?'))
      if run.isEmpty then tryVerbs l vs
      else some (String.mk (l.take (v.length + run.length)))
    else tryVerbs l vs

/-- First match of a `\b(verb|...)[^.!?]+` pattern with the `i` flag:
advance one character at a time, attempting the alternation at every word
boundary. -/
def verbScan (verbs : List String) : List Char → Bool → Option String
  | [], _ => none
  | c :: cs, atB =>
    if atB then
      match tryVerbs (c :: cs) verbs with
      | some m => some m
      | none => verbScan verbs cs (!isWordChar c)
    else verbScan verbs cs (!isWordChar c)

/-- `extractActionFromParagraph(paragraph)`: the three patterns in order,
returning the trimmed first match. -/
def extractActionFromParagraph (p : String) : String :=
  match verbScan actionVerbs1 p.data true with
  | some m => m.trim
  | none =>
    match verbScan actionVerbs2 p.data true with
    | some m => m.trim
    | none =>
      match verbScan actionVerbs3 p.data true with
      | some m => m.trim
      | none => ""

/-- The ordered tone categories and keyword lists of `determineEmotionalTone`. -/
def toneKeywords : List (String × List String) :=
  [("happy", ["happy", "joy", "excited", "fun", "laugh", "smile", "delight"]),
   ("sad", ["sad", "unhappy", "cry", "tear", "lonely", "sorrow", "upset"]),
   ("scared", ["afraid", "fear", "scary", "terrified", "frightened", "nervous"]),
   ("angry", ["angry", "mad", "furious", "rage", "yelled", "shouted"]),
   ("peaceful", ["calm", "quiet", "peaceful", "gentle", "soft", "serene"]),
   ("mysterious", ["mystery", "strange", "weird", "curious", "wonder", "magical"]),
   ("adventurous", ["adventure", "explore", "discover", "journey", "quest", "exciting"])]

/-- `determineEmotionalTone(paragraph)`: the first category whose keyword
hit count strictly exceeds all earlier ones, defaulting to `"neutral"`. -/
def determineEmotionalTone (p : String) : String :=
  let lower := lowerStr p
  (toneKeywords.foldl
    (fun (acc : Nat × String) tk =>
      let count := (tk.2.filter (fun w => includesStr lower w)).length
      if acc.1 < count then (count, tk.1) else acc)
    (0, "neutral")).2

/-- The action keywords of `findActionParagraph`. -/
def actionWords : List String :=
  ["suddenly", "quickly", "raced", "jumped", "ran", "flew",
   "shouted", "exclaimed", "burst", "surprise", "discovery"]

/-- Score of one paragraph in `findActionParagraph`: one point per action
word contained in the lowercased paragraph. -/
def actionScore (p : String) : Nat :=
  ((actionWords.filter (fun w => includesStr (lowerStr p) w))).length

/-- The climax indicator keywords of `findClimaxParagraph`. -/
def climaxIndicators : List String :=
  ["finally", "suddenly", "at last", "to their surprise",
   "amazing", "incredible", "astonished", "shocked", "realized",
   "discovered", "found", "revealed"]

/-- Score of one paragraph in `findClimaxParagraph`: one point per indicator
contained in the lowercased paragraph plus two points per exclamation mark. -/
def climaxScore (p : String) : Nat :=
  let lower := lowerStr p
  (climaxIndicators.filter (fun w => includesStr lower w)).length +
    2 * (lower.data.filter (fun c => c == '!')).length

/-- The index list walked by the loops
`for (let i = startIdx; i <= endIdx && i < paragraphs.length; i++)`:
consecutive indices from `startIdx` up to (and including) the smaller of
`endIdx` and `paragraphs.length - 1`. -/
def loopIdxs (n startIdx endIdx : Nat) : List Nat :=
  List.range' startIdx (min (endIdx + 1) n - startIdx)

/-- One loop iteration of the best-score search: strictly greater scores
update the best index (`-1` initially), so the earliest maximum wins. -/
def bestStep (score : String → Nat) (ps : List String) (acc : Int × Nat) (i : Nat) :
    Int × Nat :=
  let sc := score (ps.getD i "")
  if acc.2 < sc then ((i : Int), sc) else acc

/-- `findActionParagraph(paragraphs, startIdx, endIdx)`: best action score in
the range, or the midpoint of the range when nothing scores and the range is
well formed, or `-1`. -/
def findActionParagraph (ps : List String) (startIdx endIdx : Nat) : Int :=
  let best := ((loopIdxs ps.length startIdx endIdx).foldl (bestStep actionScore ps) (-1, 0)).1
  if best = -1 && startIdx ≤ endIdx && endIdx < ps.length then ((startIdx + endIdx) / 2 : Nat)
  else best

/-- `findClimaxParagraph(paragraphs, startIdx, endIdx)`: best climax score in
the range, falling back to `min(floor(length * 0.75), length - 1)`. -/
def findClimaxParagraph (ps : List String) (startIdx endIdx : Nat) : Int :=
  let best := ((loopIdxs ps.length startIdx endIdx).foldl (bestStep climaxScore ps) (-1, 0)).1
  if best = -1 then min ((3 * ps.length / 4 : Nat) : Int) ((ps.length : Int) - 1)
  else best

/-- The paragraphs actually visited by the `findClimaxParagraph` loop:
indices from `startIdx` through `min(endIdx, length - 1)` inclusive. -/
def climaxWindow (ps : List String) (startIdx endIdx : Nat) : List String :=
  (loopIdxs ps.length startIdx endIdx).map (fun i => ps.getD i "")

/-- The common element construction of `identifyNarrativeElements`. -/
def mkElement (ps : List String) (idx : Nat) (ty : NEType) (imp : Nat) : NarrativeElement :=
  let p := ps.getD idx ""
  { paragraphIndex := idx
    type := ty
    importance := imp
    characters := extractNamesFromParagraph p
    setting := extractSettingFromParagraph p
    action := extractActionFromParagraph p
    description := p
    emotionalTone := determineEmotionalTone p }

/-- `identifyNarrativeElements(paragraphs)`: introduction at 0 (importance 9),
an action beat in `[1, floor(0.6 N)]` when `N > 2` (importance 7), a climax
beat in `[floor(0.6 N), floor(0.9 N)]` when `N > 3` (importance 10), and the
resolution at the last paragraph when `N > 1` (importance 8), pushed in that
order. -/
def identifyNarrativeElements (paragraphs : List String) : List NarrativeElement :=
  let n := paragraphs.length
  let intro := if 0 < n then [mkElement paragraphs 0 .introduction 9] else []
  let actionEls :=
    if 2 < n then
      let a := findActionParagraph paragraphs 1 (3 * n / 5)
      if a ≠ -1 then [mkElement paragraphs a.toNat .action 7] else []
    else []
  let climaxEls :=
    if 3 < n then
      let c := findClimaxParagraph paragraphs (3 * n / 5) (9 * n / 10)
      if c ≠ -1 then [mkElement paragraphs c.toNat .climax 10] else []
    else []
  let resolutionEls := if 1 < n then [mkElement paragraphs (n - 1) .resolution 8] else []
  intro ++ actionEls ++ climaxEls ++ resolutionEls

/-- `[...new Set(arr)]`: deduplicate keeping the first occurrence of each
value (`seen` accumulates values already emitted). -/
def dedupKeepFirst (seen : List Nat) : List Nat → List Nat
  | [] => []
  | x :: xs => if x ∈ seen then dedupKeepFirst seen xs else x :: dedupKeepFirst (x :: seen) xs

/-- The character-introduction adjustment step of
`selectOptimalImageParagraphs`: ensure the top character's first appearance
is present, appending it when fewer than four slots are used, otherwise
replacing the least important selected element when its importance is
below 8. -/
def adjustForCharacter (sortedElements : List NarrativeElement)
    (recommendedParagraphs : List Nat)
    (characters : List CharacterDescription) : List Nat :=
  match characters with
  | [] => recommendedParagraphs
  | c0 :: _ =>
    if c0.firstAppearance ∈ recommendedParagraphs then recommendedParagraphs
    else if recommendedParagraphs.length < 4 then
      recommendedParagraphs ++ [c0.firstAppearance]
    else
      match sortedElements.getLast? with
      | none => recommendedParagraphs
      | some lastEl =>
        if lastEl.importance < 8 then
          match recommendedParagraphs.findIdx? (fun y => y == lastEl.paragraphIndex) with
          | some k => recommendedParagraphs.set k c0.firstAppearance
          | none => recommendedParagraphs
        else recommendedParagraphs

/-- `selectOptimalImageParagraphs(paragraphs, narrativeElements, characters)`:
indices of the up-to-four most important narrative elements (stable sort by
importance descending), the character adjustment, then `[...new Set(...)]`
deduplication and an ascending sort. -/
def selectOptimalImageParagraphs (paragraphs : List String)
    (narrativeElements : List NarrativeElement)
    (characters : List CharacterDescription) : List Nat :=
  let sortedElements := List.insertionSort
    (fun a b => b.importance ≤ a.importance) narrativeElements
  let recommendedParagraphs := (sortedElements.take 4).map (·.paragraphIndex)
  let adjusted := adjustForCharacter sortedElements recommendedParagraphs characters
  List.insertionSort (fun a b => a ≤ b) (dedupKeepFirst [] adjusted)

/-! Section: Tokenizer lemmas -/

theorem encode_charTok_length (s : String) : (charTok.encode s).length = s.length := by
  simp [charTok]

theorem decode_charTok_length (l : List Nat) : (charTok.decode l).length = l.length := by
  simp [charTok]

theorem countTokens_charTok (s : String) : countTokens charTok s = s.length := by
  by_cases h : s = ""
  · subst h; rfl
  · rw [countTokens, if_neg h, encode_charTok_length]

theorem countTokens_truncate_le (s : String) (m : Nat) :
    countTokens charTok (truncateToTokenLimit charTok s m) ≤
      m + countTokens charTok truncationMarker := by
  rw [countTokens_charTok]
  by_cases h : s = ""
  · simp [truncateToTokenLimit, h]
  · rw [truncateToTokenLimit, if_neg h]
    by_cases h2 : (charTok.encode s).length ≤ m
    · rw [if_pos h2]
      have := encode_charTok_length s
      omega
    · rw [if_neg h2, String.length_append, decode_charTok_length, List.length_take,
        countTokens_charTok]
      omega

theorem truncate_eq_self_of_le (s : String) (m : Nat) (h : countTokens charTok s ≤ m) :
    truncateToTokenLimit charTok s m = s := by
  by_cases h0 : s = ""
  · subst h0; rfl
  · rw [countTokens_charTok] at h
    rw [truncateToTokenLimit, if_neg h0, if_pos]
    rw [encode_charTok_length]
    exact h

/-- Claim C1, amended: `truncateToTokenLimit(text, maxTokens)` returns text
whose token count is at most `maxTokens` plus the token count of the
appended `" [truncated]"` marker, and returns `text` unchanged — hence
within `maxTokens` — whenever `countTokens(text) ≤ maxTokens`.  The
unqualified bound `countTokens(text') ≤ maxTokens` of the claim fails when
truncation occurs, because the visible marker is appended after the cut. -/
theorem truncateToTokenLimit_tokenBound (text : String) (maxTokens : Nat) :
    countTokens charTok (truncateToTokenLimit charTok text maxTokens) ≤
      maxTokens + countTokens charTok truncationMarker ∧
    (countTokens charTok text ≤ maxTokens →
      truncateToTokenLimit charTok text maxTokens = text) :=
  ⟨countTokens_truncate_le text maxTokens, truncate_eq_self_of_le text maxTokens⟩

/-- Witness for the amended claim C1 at `text = "ab"`, `maxTokens = 5`. -/
theorem truncateToTokenLimit_tokenBound_witness :
    countTokens charTok (truncateToTokenLimit charTok "ab" 5) ≤
      5 + countTokens charTok truncationMarker ∧
    truncateToTokenLimit charTok "ab" 5 = "ab" :=
  ⟨(truncateToTokenLimit_tokenBound "ab" 5).1,
   (truncateToTokenLimit_tokenBound "ab" 5).2 (by decide)⟩

/-- Claim C1, counterexample: at `text = "ab"`, `maxTokens = 1` the code
returns `"a [truncated]"`, 13 tokens under the character tokenizer, so
`countTokens(text') ≤ maxTokens` is violated. -/
theorem truncateToTokenLimit_counterexample :
    ¬ countTokens charTok (truncateToTokenLimit charTok "ab" 1) ≤ 1 := by decide

/-! Section: Duplicate-id insertion (claims C5 and C9) -/

/-- Claim C5: adding a second component with an already present id makes
`addComponent` return an error, and the component list is unchanged by the
failed call (the throw happens before the push). -/
theorem addComponent_duplicate_rejected (comps : List PromptComponent)
    (c : PromptComponent) (h : ∃ x ∈ comps, x.id = c.id) :
    (addComponent comps c).isOk = false ∧ addComponentRun comps c = comps := by
  have hany : comps.any (fun x => x.id == c.id) = true := by
    rw [List.any_eq_true]
    obtain ⟨x, hx, he⟩ := h
    exact ⟨x, hx, by simp [he]⟩
  refine ⟨?_, ?_⟩
  · simp [addComponent, hany, Except.isOk, Except.toBool]
  · simp [addComponentRun, addComponent, hany]

/-- Witness for claim C5 at a concrete duplicated id. -/
theorem addComponent_duplicate_rejected_witness :
    (addComponent [⟨"x", .context, "one", false, none, 0⟩]
        ⟨"x", .context, "two", false, none, 0⟩).isOk = false ∧
    addComponentRun [⟨"x", .context, "one", false, none, 0⟩]
        ⟨"x", .context, "two", false, none, 0⟩ =
      [⟨"x", .context, "one", false, none, 0⟩] :=
  addComponent_duplicate_rejected _ _ (by decide)

/-- Claim C9: `addComponents` is not atomic on failure — when the ids seen
before position `k` are all fresh and the element at position `k` duplicates
one of them (or a pre-existing id), the run stops with an error while the
first `k` list elements remain added. -/
theorem addComponents_partial_insert (comps pre : List PromptComponent)
    (x : PromptComponent) (post : List PromptComponent)
    (h1 : ((comps ++ pre).map (·.id)).Nodup)
    (h2 : x.id ∈ (comps ++ pre).map (·.id)) :
    (addComponentsRun comps (pre ++ x :: post)).1 = comps ++ pre ∧
    (addComponentsRun comps (pre ++ x :: post)).2.isSome = true := by
  induction pre generalizing comps with
  | nil =>
    simp only [List.append_nil] at h1 h2 ⊢
    have hany : comps.any (fun y => y.id == x.id) = true := by
      rw [List.any_eq_true]
      rw [List.mem_map] at h2
      obtain ⟨y, hy, he⟩ := h2
      exact ⟨y, hy, by simp [he]⟩
    simp [addComponentsRun, addComponent, hany]
  | cons p pre ih =>
    have hfresh : comps.any (fun y => y.id == p.id) = false := by
      by_contra hcon
      have hcon' : comps.any (fun y => y.id == p.id) = true :=
        Bool.not_eq_false _ ▸ hcon
      rw [List.any_eq_true] at hcon'
      obtain ⟨y, hy, he⟩ := hcon'
      have he' : y.id = p.id := by simpa using he
      rw [List.map_append, List.nodup_append] at h1
      obtain ⟨-, -, hdisj⟩ := h1
      have hm1 : p.id ∈ List.map (fun z => z.id) comps :=
        he' ▸ List.mem_map_of_mem (fun z => z.id) hy
      have hm2 : p.id ∈ List.map (fun z => z.id) (p :: pre) := by simp
      exact hdisj hm1 hm2
    have hassoc : comps ++ p :: pre = (comps ++ [p]) ++ pre := by
      rw [List.append_assoc, List.singleton_append]
    rw [hassoc] at h1 h2
    have hres := ih (comps ++ [p]) h1 h2
    have hstep : addComponentsRun comps ((p :: pre) ++ x :: post) =
        addComponentsRun (comps ++ [p]) (pre ++ x :: post) := by
      simp [addComponentsRun, addComponent, hfresh]
    rw [hstep, hassoc]
    exact hres

/-- Witness for claim C9: the first element of the list is retained even
though the second errors out as a duplicate. -/
theorem addComponents_partial_insert_witness :
    (addComponentsRun []
        ([⟨"a", .context, "one", false, none, 0⟩] ++
          (⟨"a", .context, "two", false, none, 0⟩ : PromptComponent) :: [])).1 =
      [] ++ [⟨"a", .context, "one", false, none, 0⟩] ∧
    (addComponentsRun []
        ([⟨"a", .context, "one", false, none, 0⟩] ++
          (⟨"a", .context, "two", false, none, 0⟩ : PromptComponent) :: [])).2.isSome = true :=
  addComponents_partial_insert [] _ _ [] (by decide) (by decide)

/-! Section: Narrative elements can share a paragraph index (claim C10) -/

/-- Claim C10: for a four-paragraph story with no climax-indicator keyword
and no exclamation mark in the climax window (paragraphs 2 and 3), the
climax fallback index `min(floor(4*0.75), 3) = 3` coincides with the
resolution index 3, and both elements are returned — the element list is
not deduplicated by paragraph index. -/
theorem identifyNarrativeElements_sharedIndex :
    (identifyNarrativeElements ["Aa.", "Bb.", "Cc.", "Dd."]).map
        (fun el => (el.paragraphIndex, el.type)) =
      [(0, .introduction), (1, .action), (3, .climax), (3, .resolution)] ∧
    climaxScore "Cc." = 0 ∧ climaxScore "Dd." = 0 := by decide

/-! Section: Template-variable lemmas (claim C8) -/

theorem lookupVar_cons (kv : String × String) (vars : List (String × String)) (k : String) :
    lookupVar (kv :: vars) k = if kv.1 == k then some kv.2 else lookupVar vars k := by
  by_cases h : (kv.1 == k) = true
  · rw [lookupVar, @List.find?_cons_of_pos _ (fun kv => kv.1 == k) kv vars h, if_pos h]
    rfl
  · rw [lookupVar, @List.find?_cons_of_neg _ (fun kv => kv.1 == k) kv vars h, if_neg h]
    rfl

theorem eraseKey_cons (kv : String × String) (vars : List (String × String)) (key : String) :
    eraseKey (kv :: vars) key =
      if kv.1 != key then kv :: eraseKey vars key else eraseKey vars key := by
  rw [eraseKey, List.filter_cons]
  rfl

theorem lookupVar_erase_self (vars : List (String × String)) (key : String) :
    lookupVar (eraseKey vars key) key = none := by
  induction vars with
  | nil => rfl
  | cons kv vars ih =>
    rw [eraseKey_cons]
    by_cases h : kv.1 = key
    · rw [if_neg (by simp [h])]
      exact ih
    · rw [if_pos (by simp [h]), lookupVar_cons, if_neg (by simp [h])]
      exact ih

theorem lookupVar_erase_ne (vars : List (String × String)) (key k : String) (h : k ≠ key) :
    lookupVar (eraseKey vars key) k = lookupVar vars k := by
  induction vars with
  | nil => rfl
  | cons kv vars ih =>
    rw [eraseKey_cons, lookupVar_cons]
    by_cases h1 : kv.1 = key
    · rw [if_neg (by simp [h1]), if_neg (by simp [h1, Ne.symm h])]
      exact ih
    · rw [if_pos (by simp [h1]), lookupVar_cons]
      by_cases h2 : kv.1 = k
      · rw [if_pos (by simp [h2]), if_pos (by simp [h2])]
      · rw [if_neg (by simp [h2]), if_neg (by simp [h2])]
        exact ih

theorem applyVar_emptySet_eq_erase (vars : List (String × String)) (key : String) :
    applyVar (setTemplateVariable vars key "") = applyVar (eraseKey vars key) := by
  funext k
  by_cases h : k = key
  · subst h
    rw [applyVar, applyVar, lookupVar_erase_self, setTemplateVariable,
      lookupVar_cons, if_pos (by simp)]
    simp
  · rw [applyVar, applyVar, lookupVar_erase_ne vars key k h, setTemplateVariable,
      lookupVar_cons, if_neg (by simp [Ne.symm h])]

/-- Claim C8: a template variable set to the empty string is not
substituted — the empty string is falsy in `templateVariables[key] ||
placeholder`, so `buildPrompt`'s substitution pass leaves the placeholder
verbatim, exactly as if the variable had never been set (whether it was set
by `setTemplateVariable` or by `setTemplateVariables`). -/
theorem applyTemplateVariables_emptyValue (vars : List (String × String)) (key text : String) :
    applyTemplateVariables (setTemplateVariable vars key "") text =
      applyTemplateVariables (eraseKey vars key) text ∧
    applyTemplateVariables (setTemplateVariables vars [(key, "")]) text =
      applyTemplateVariables (eraseKey vars key) text := by
  have h1 : applyTemplateVariables (setTemplateVariable vars key "") text =
      applyTemplateVariables (eraseKey vars key) text := by
    unfold applyTemplateVariables
    rw [applyVar_emptySet_eq_erase]
  exact ⟨h1, h1⟩

/-! Section: Illustration-paragraph selection invariants (claim C6) -/

theorem length_dedupKeepFirst_le (l : List Nat) :
    ∀ seen, (dedupKeepFirst seen l).length ≤ l.length := by
  induction l with
  | nil => intro seen; simp [dedupKeepFirst]
  | cons x xs ih =>
    intro seen
    rw [dedupKeepFirst]
    by_cases h : x ∈ seen
    · rw [if_pos h]
      exact Nat.le_succ_of_le (ih seen)
    · rw [if_neg h, List.length_cons]
      exact Nat.succ_le_succ (ih (x :: seen))

theorem nodup_dedupKeepFirst (l : List Nat) :
    ∀ seen, (dedupKeepFirst seen l).Nodup ∧ ∀ x ∈ dedupKeepFirst seen l, x ∉ seen := by
  induction l with
  | nil => intro seen; simp [dedupKeepFirst]
  | cons x xs ih =>
    intro seen
    rw [dedupKeepFirst]
    by_cases h : x ∈ seen
    · rw [if_pos h]; exact ih seen
    · rw [if_neg h]
      obtain ⟨hnd, hout⟩ := ih (x :: seen)
      refine ⟨List.nodup_cons.mpr ⟨fun hx => ?_, hnd⟩, ?_⟩
      · exact hout x hx (List.mem_cons_self x seen)
      · intro y hy
        rcases List.mem_cons.mp hy with hy | hy
        · exact hy ▸ h
        · exact fun hys => hout y hy (List.mem_cons_of_mem x hys)

theorem adjustForCharacter_length_le (sortedElements : List NarrativeElement)
    (r : List Nat) (characters : List CharacterDescription) (h : r.length ≤ 4) :
    (adjustForCharacter sortedElements r characters).length ≤ 4 := by
  cases characters with
  | nil => exact h
  | cons c0 rest =>
    simp only [adjustForCharacter]
    split
    next => exact h
    next =>
      split
      next h2 =>
        rw [List.length_append, List.length_singleton]
        omega
      next =>
        split
        next => exact h
        next lastEl =>
          split
          next =>
            split
            next k hf =>
              rw [List.length_set]
              exact h
            next => exact h
          next => exact h

/-- Claim C6: the recommended illustration indices form a list of at most 4
entries, with no duplicates, sorted ascending.  Stated for every input of
`selectOptimalImageParagraphs`, which covers the
`recommendedImageParagraphs` field of every `analyzeStoryContent` result. -/
theorem selectOptimalImageParagraphs_invariants (paragraphs : List String)
    (narrativeElements : List NarrativeElement)
    (characters : List CharacterDescription) :
    (selectOptimalImageParagraphs paragraphs narrativeElements characters).length ≤ 4 ∧
    (selectOptimalImageParagraphs paragraphs narrativeElements characters).Nodup ∧
    (selectOptimalImageParagraphs paragraphs narrativeElements characters).Sorted (· ≤ ·) := by
  have key : ∀ adj : List Nat, adj.length ≤ 4 →
      (List.insertionSort (fun a b : Nat => a ≤ b) (dedupKeepFirst [] adj)).length ≤ 4 ∧
      (List.insertionSort (fun a b : Nat => a ≤ b) (dedupKeepFirst [] adj)).Nodup ∧
      (List.insertionSort (fun a b : Nat => a ≤ b) (dedupKeepFirst [] adj)).Sorted
        (fun a b : Nat => a ≤ b) := by
    intro adj hadj
    have hperm := List.perm_insertionSort (fun a b : Nat => a ≤ b) (dedupKeepFirst [] adj)
    refine ⟨?_, ?_, ?_⟩
    · rw [hperm.length_eq]
      exact le_trans (length_dedupKeepFirst_le adj []) hadj
    · exact hperm.symm.nodup (nodup_dedupKeepFirst adj []).1
    · exact List.sorted_insertionSort _ _
  have hbase : ((List.insertionSort
      (fun a b : NarrativeElement => b.importance ≤ a.importance)
        narrativeElements).take 4).length ≤ 4 := by
    rw [List.length_take]
    exact min_le_left _ _
  have hlen : (((List.insertionSort
      (fun a b : NarrativeElement => b.importance ≤ a.importance)
        narrativeElements).take 4).map (fun el => el.paragraphIndex)).length ≤ 4 := by
    rw [List.length_map]
    exact hbase
  exact key _ (adjustForCharacter_length_le _ _ _ hlen)

/-! Section: The shape of one `buildPrompt` loop iteration -/

/-- Every iteration of the `buildPrompt` loop appends exactly one audit
entry, carrying the component's id and type; the entry is marked included
whenever the component is required; and the running system/user token
counts grow exactly by the recorded tokens of an included entry of the
corresponding kind. -/
theorem processComponent_shape (tok : Tokenizer) (tb : TokenBudget)
    (vars : List (String × String)) (st : BuildState) (c : PromptComponent) :
    ∃ en : AuditEntry,
      (processComponent tok tb vars st c).includedComponents =
        st.includedComponents ++ [en] ∧
      en.id = c.id ∧ en.type = c.type ∧
      (c.required = true → en.included = true) ∧
      (processComponent tok tb vars st c).systemTokenCount =
        st.systemTokenCount +
          (if en.included && (en.type == PromptComponentType.system) then en.tokens else 0) ∧
      (processComponent tok tb vars st c).userTokenCount =
        st.userTokenCount +
          (if en.included && (en.type != PromptComponentType.system) then en.tokens else 0) := by
  simp only [processComponent]
  split
  next hreq =>
    split
    next hsys =>
      refine ⟨_, rfl, rfl, rfl, fun _ => rfl, ?_, ?_⟩
      · simp [hsys]
      · simp [bne, hsys]
    next hsys =>
      have hsys' : (c.type == PromptComponentType.system) = false :=
        eq_false_of_ne_true hsys
      refine ⟨_, rfl, rfl, rfl, fun _ => rfl, ?_, ?_⟩
      · simp [hsys']
      · simp [bne, hsys']
  next hreq =>
    split
    next hcan =>
      split
      next hsys =>
        refine ⟨_, rfl, rfl, rfl, fun _ => rfl, ?_, ?_⟩
        · simp [hsys]
        · simp [bne, hsys]
      next hsys =>
        have hsys' : (c.type == PromptComponentType.system) = false :=
          eq_false_of_ne_true hsys
        refine ⟨_, rfl, rfl, rfl, fun _ => rfl, ?_, ?_⟩
        · simp [hsys']
        · simp [bne, hsys']
    next hcan =>
      have hcan' : (canIncludeInSystem tok tb vars st c ||
          canIncludeInUser tok tb vars st c) = false := eq_false_of_ne_true hcan
      rcases Bool.or_eq_false_iff.mp hcan' with ⟨hcs, hcu⟩
      have hnr : c.required = false := by
        by_contra hr
        have hr' : c.required = true := Bool.of_not_eq_false hr
        exact hreq (by rw [hr', hcs, hcu]; rfl)
      refine ⟨_, rfl, rfl, rfl, ?_, ?_, ?_⟩
      · intro hr
        rw [hnr] at hr
        exact absurd hr (by simp)
      · simp
      · simp

theorem foldl_includes_append (tok : Tokenizer) (tb : TokenBudget)
    (vars : List (String × String)) :
    ∀ (L : List PromptComponent) (st : BuildState),
      ∃ tail, (L.foldl (processComponent tok tb vars) st).includedComponents =
        st.includedComponents ++ tail := by
  intro L
  induction L with
  | nil => intro st; exact ⟨[], by simp⟩
  | cons c L ih =>
    intro st
    obtain ⟨en, hen, -, -, -, -, -⟩ := processComponent_shape tok tb vars st c
    obtain ⟨tail, htail⟩ := ih (processComponent tok tb vars st c)
    exact ⟨[en] ++ tail, by rw [List.foldl_cons, htail, hen, List.append_assoc]⟩

theorem foldl_required_mem (tok : Tokenizer) (tb : TokenBudget)
    (vars : List (String × String)) :
    ∀ (L : List PromptComponent) (st : BuildState) (c : PromptComponent),
      c ∈ L → c.required = true →
      ∃ en ∈ (L.foldl (processComponent tok tb vars) st).includedComponents,
        en.id = c.id ∧ en.included = true := by
  intro L
  induction L with
  | nil => intro st c hc; exact absurd hc (List.not_mem_nil c)
  | cons a L ih =>
    intro st c hc hreq
    rcases List.mem_cons.mp hc with rfl | hc
    · obtain ⟨en, hen, hid, -, hinc, -, -⟩ := processComponent_shape tok tb vars st c
      obtain ⟨tail, htail⟩ := foldl_includes_append tok tb vars L (processComponent tok tb vars st c)
      refine ⟨en, ?_, hid, hinc hreq⟩
      rw [List.foldl_cons, htail, hen, List.append_assoc]
      exact List.mem_append_right _ (List.mem_append_left _ (by simp))
    · exact ih (processComponent tok tb vars st a) c hc hreq

/-- Claim C2: every `required` component receives an audit entry with
`included = true`, for every token budget (including `total = 1`);
`buildPrompt` is a total function, so the build never fails on a required
component's account — it degrades to truncation instead. -/
theorem buildPrompt_required_included (tok : Tokenizer) (tb : TokenBudget)
    (vars : List (String × String)) (comps : List PromptComponent)
    (c : PromptComponent) (hc : c ∈ comps) (hreq : c.required = true) :
    (buildPrompt tok tb vars comps).components.any
      (fun en => en.id == c.id && en.included) = true := by
  have hc' : c ∈ sortByPriority comps :=
    ((List.perm_insertionSort _ comps).mem_iff).mpr hc
  obtain ⟨en, hmem, hid, hinc⟩ :=
    foldl_required_mem tok tb vars (sortByPriority comps) ⟨[], [], 0, 0, []⟩ c hc' hreq
  rw [List.any_eq_true]
  exact ⟨en, by simpa [buildPrompt] using hmem, by simp [hid, hinc]⟩

/-- Witness for claim C2: a required system component under the minimal
total budget `1` is still audited as included. -/
theorem buildPrompt_required_included_witness :
    (buildPrompt charTok ⟨1, none, none, none, none, none, none, none⟩ []
        [⟨"sys1", .system, "hello world", true, none, 0⟩]).components.any
      (fun en => en.id == "sys1" && en.included) = true :=
  buildPrompt_required_included charTok ⟨1, none, none, none, none, none, none, none⟩ []
    [⟨"sys1", .system, "hello world", true, none, 0⟩]
    ⟨"sys1", .system, "hello world", true, none, 0⟩ (by decide) rfl

/-! Section: Token accounting (claim C3) -/

theorem includedTokensWhere_append (p : PromptComponentType → Bool)
    (l : List AuditEntry) (en : AuditEntry) :
    includedTokensWhere p (l ++ [en]) =
      includedTokensWhere p l + (if en.included && p en.type then en.tokens else 0) := by
  rw [includedTokensWhere, includedTokensWhere, List.filter_append, List.map_append,
    List.sum_append]
  by_cases hc : (en.included && p en.type) = true
  · simp [List.filter_cons, hc]
  · simp [List.filter_cons, eq_false_of_ne_true hc]

theorem foldl_token_accounting (tok : Tokenizer) (tb : TokenBudget)
    (vars : List (String × String)) :
    ∀ (L : List PromptComponent) (st : BuildState),
      (L.foldl (processComponent tok tb vars) st).systemTokenCount +
          includedTokensWhere (fun t => t == PromptComponentType.system)
            st.includedComponents =
        st.systemTokenCount +
          includedTokensWhere (fun t => t == PromptComponentType.system)
            (L.foldl (processComponent tok tb vars) st).includedComponents ∧
      (L.foldl (processComponent tok tb vars) st).userTokenCount +
          includedTokensWhere (fun t => t != PromptComponentType.system)
            st.includedComponents =
        st.userTokenCount +
          includedTokensWhere (fun t => t != PromptComponentType.system)
            (L.foldl (processComponent tok tb vars) st).includedComponents := by
  intro L
  induction L with
  | nil => intro st; exact ⟨rfl, rfl⟩
  | cons c L ih =>
    intro st
    obtain ⟨en, hen, -, -, -, hsys, huser⟩ := processComponent_shape tok tb vars st c
    obtain ⟨ihs, ihu⟩ := ih (processComponent tok tb vars st c)
    rw [List.foldl_cons] at *
    constructor
    · have h1 : includedTokensWhere (fun t => t == PromptComponentType.system)
          (processComponent tok tb vars st c).includedComponents =
          includedTokensWhere (fun t => t == PromptComponentType.system)
            st.includedComponents +
            (if en.included && (en.type == PromptComponentType.system) then en.tokens else 0) := by
        rw [hen, includedTokensWhere_append]
      rw [h1, hsys] at ihs
      omega
    · have h1 : includedTokensWhere (fun t => t != PromptComponentType.system)
          (processComponent tok tb vars st c).includedComponents =
          includedTokensWhere (fun t => t != PromptComponentType.system)
            st.includedComponents +
            (if en.included && (en.type != PromptComponentType.system) then en.tokens else 0) := by
        rw [hen, includedTokensWhere_append]
      rw [h1, huser] at ihu
      omega

/-- Claim C3, amended: `systemTokens + userTokens = totalTokens` always
holds, and `systemTokens`/`userTokens` are the sums of the per-component
token counts recorded for the included components of system/non-system
type.  They are not in general the tokenizer's count of the joined final
prompt strings: joining adds a `"\n\n"` separator between every two
included components, whose tokens the running counters never see. -/
theorem buildPrompt_token_accounting (tok : Tokenizer) (tb : TokenBudget)
    (vars : List (String × String)) (comps : List PromptComponent) :
    (buildPrompt tok tb vars comps).totalTokens =
      (buildPrompt tok tb vars comps).systemTokens +
        (buildPrompt tok tb vars comps).userTokens ∧
    (buildPrompt tok tb vars comps).systemTokens =
      includedTokensWhere (fun t => t == PromptComponentType.system)
        (buildPrompt tok tb vars comps).components ∧
    (buildPrompt tok tb vars comps).userTokens =
      includedTokensWhere (fun t => t != PromptComponentType.system)
        (buildPrompt tok tb vars comps).components := by
  obtain ⟨hs, hu⟩ :=
    foldl_token_accounting tok tb vars (sortByPriority comps) ⟨[], [], 0, 0, []⟩
  refine ⟨rfl, ?_, ?_⟩
  · simpa [buildPrompt, includedTokensWhere] using hs
  · simpa [buildPrompt, includedTokensWhere] using hu

/-- Claim C3, counterexample: with two one-token system components, the
returned `systemTokens` is 2 while the tokenizer's count of the final
`systemPrompt` `"a\n\nb"` is 4 — the `"\n\n"` separator is not accounted. -/
theorem buildPrompt_systemTokens_counterexample :
    ¬ ((buildPrompt charTok ⟨100, none, none, none, none, none, none, none⟩ []
          [⟨"s1", .system, "a", false, none, 0⟩,
           ⟨"s2", .system, "b", false, none, 0⟩]).systemTokens =
        countTokens charTok
          (buildPrompt charTok ⟨100, none, none, none, none, none, none, none⟩ []
            [⟨"s1", .system, "a", false, none, 0⟩,
             ⟨"s2", .system, "b", false, none, 0⟩]).systemPrompt) := by
  decide

/-! Section: Per-type budget enforcement (claim C4) -/

theorem countTokens_marker : countTokens charTok truncationMarker = 12 := by decide

theorem effTypeBudget_system (tb : TokenBudget) (m : Int) (hm : tb.system = some m)
    (hm0 : m ≠ 0) : effTypeBudget tb PromptComponentType.system = some m := by
  rw [effTypeBudget, typeBudgetField, hm]
  simp [hm0]

/-- One loop iteration under the character tokenizer keeps the running
system token count within `max(previous, systemBudget)` plus the 12-token
marker overhead when a required system component is truncated. -/
theorem processComponent_sysBound (tb : TokenBudget) (vars : List (String × String))
    (st : BuildState) (c : PromptComponent) (m : Int)
    (hm : tb.system = some m) (hm0 : m ≠ 0) :
    ((processComponent charTok tb vars st c).systemTokenCount : Int) ≤
      max (st.systemTokenCount : Int) m +
        (if c.required && (c.type == PromptComponentType.system) then 12 else 0) := by
  have hind : (0 : Int) ≤
      (if c.required && (c.type == PromptComponentType.system) then (12 : Int) else 0) := by
    split <;> omega
  have hmax : ((st.systemTokenCount : Int)) ≤ max (st.systemTokenCount : Int) m :=
    le_max_left _ _
  simp only [processComponent]
  split
  next hreq =>
    split
    next hsys =>
      -- required system component: truncated to the remaining system budget
      have hctype : c.type = PromptComponentType.system := by simpa using hsys
      have heff : effTypeBudget tb c.type = some m := by
        rw [hctype]; exact effTypeBudget_system tb m hm hm0
      have hreq' : c.required = true := by
        have h := hreq
        simp only [Bool.and_eq_true] at h
        exact h.1.1
      simp only [hsys, heff, hreq', Bool.and_true, truncateOpt, Option.map_some',
        if_true]
      have htr := countTokens_truncate_le (processedContentOf vars c)
        ((max 0 (m - (st.systemTokenCount : Int))).toNat)
      rw [countTokens_marker] at htr
      have hcast : (((max 0 (m - (st.systemTokenCount : Int))).toNat : Int)) =
          max 0 (m - (st.systemTokenCount : Int)) :=
        Int.toNat_of_nonneg (le_max_left 0 _)
      push_cast
      omega
    next hsys =>
      -- required non-system component: system count unchanged
      exact le_trans hmax (le_add_of_nonneg_right hind)
  next hreq =>
    split
    next hcan =>
      split
      next hsys =>
        -- admissible system component: fits under the system sub-budget
        have hctype : c.type = PromptComponentType.system := by simpa using hsys
        have heff : effTypeBudget tb c.type = some m := by
          rw [hctype]; exact effTypeBudget_system tb m hm hm0
        have hcan2 := hcan
        simp only [Bool.or_eq_true] at hcan2
        have hcs : canIncludeInSystem charTok tb vars st c = true := by
          rcases hcan2 with h | h
          · exact h
          · exfalso
            rw [canIncludeInUser] at h
            simp only [Bool.and_eq_true, bne, hsys] at h
            exact Bool.noConfusion h.1
        rw [canIncludeInSystem, heff] at hcs
        simp only [Bool.and_eq_true, decide_eq_true_eq] at hcs
        have hfit := hcs.2
        push_cast
        omega
      next hsys =>
        exact le_trans hmax (le_add_of_nonneg_right hind)
    next hcan =>
      exact le_trans hmax (le_add_of_nonneg_right hind)

theorem foldl_sysBound (tb : TokenBudget) (vars : List (String × String)) (m : Int)
    (hm : tb.system = some m) (hm0 : m ≠ 0) :
    ∀ (L : List PromptComponent) (st : BuildState),
      ((L.foldl (processComponent charTok tb vars) st).systemTokenCount : Int) ≤
        max (st.systemTokenCount : Int) m +
          12 * ((L.filter (fun c => c.required &&
            (c.type == PromptComponentType.system))).length : Int) := by
  intro L
  induction L with
  | nil =>
    intro st
    simp only [List.foldl_nil, List.filter_nil, List.length_nil]
    have : ((st.systemTokenCount : Int)) ≤ max (st.systemTokenCount : Int) m :=
      le_max_left _ _
    push_cast
    omega
  | cons c L ih =>
    intro st
    have hstep := processComponent_sysBound tb vars st c m hm hm0
    have hihs := ih (processComponent charTok tb vars st c)
    rw [List.foldl_cons]
    have hmono : max ((processComponent charTok tb vars st c).systemTokenCount : Int) m ≤
        max (st.systemTokenCount : Int) m +
          (if c.required && (c.type == PromptComponentType.system) then 12 else 0) := by
      have hm' : m ≤ max (st.systemTokenCount : Int) m := le_max_right _ _
      have : (0 : Int) ≤
          (if c.required && (c.type == PromptComponentType.system) then (12 : Int) else 0) := by
        split <;> omega
      omega
    by_cases hc : (c.required && (c.type == PromptComponentType.system)) = true
    · rw [@List.filter_cons_of_pos _
        (fun c => c.required && (c.type == PromptComponentType.system)) c L hc]
      rw [if_pos hc] at hmono
      simp only [List.length_cons]
      push_cast
      omega
    · rw [@List.filter_cons_of_neg _
        (fun c => c.required && (c.type == PromptComponentType.system)) c L (by simpa using hc)]
      rw [if_neg hc] at hmono
      omega

/-- Claim C4, amended: per-type sub-budgets are enforced only for the
`system` type, and even there only up to the `" [truncated]"` marker
overhead of each required system component: under the character tokenizer,
`systemTokens ≤ max(systemBudget, 0) + 12 * (number of required system
components)`.  Non-system components are admitted against the shared pool
`total - systemTokens - reserved` only; their per-type sub-budgets are
never consulted by the admissibility check. -/
theorem buildPrompt_systemBudget_bound (tb : TokenBudget) (vars : List (String × String))
    (comps : List PromptComponent) (m : Int) (hm : tb.system = some m) (hm0 : m ≠ 0) :
    ((buildPrompt charTok tb vars comps).systemTokens : Int) ≤
      max m 0 + 12 * ((comps.filter (fun c => c.required &&
        (c.type == PromptComponentType.system))).length : Int) := by
  have h := foldl_sysBound tb vars m hm hm0 (sortByPriority comps) ⟨[], [], 0, 0, []⟩
  have hperm : ((sortByPriority comps).filter (fun c => c.required &&
      (c.type == PromptComponentType.system))).length =
      (comps.filter (fun c => c.required &&
        (c.type == PromptComponentType.system))).length :=
    (List.Perm.filter _ (List.perm_insertionSort _ comps)).length_eq
  rw [hperm] at h
  have hbp : (buildPrompt charTok tb vars comps).systemTokens =
      ((sortByPriority comps).foldl (processComponent charTok tb vars)
        ⟨[], [], 0, 0, []⟩).systemTokenCount := rfl
  rw [hbp]
  have hzero : max (((⟨[], [], 0, 0, []⟩ : BuildState).systemTokenCount : Int)) m =
      max m 0 := by
    show max ((0 : Nat) : Int) m = max m 0
    push_cast
    omega
  rw [hzero] at h
  exact h

/-- Witness for the amended claim C4: a single required 25-character system
component under system sub-budget 5 yields `systemTokens = 17 = 5 + 12`,
within the stated bound. -/
theorem buildPrompt_systemBudget_bound_witness :
    ((buildPrompt charTok ⟨10, some 5, none, none, none, none, none, none⟩ []
        [⟨"sys1", .system, "hello world and more text", true, none, 10⟩]).systemTokens : Int) ≤
      max 5 0 + 12 * (([⟨"sys1", .system, "hello world and more text", true, none,
        (10 : Int)⟩].filter (fun c : PromptComponent => c.required &&
          (c.type == PromptComponentType.system))).length : Int) :=
  buildPrompt_systemBudget_bound ⟨10, some 5, none, none, none, none, none, none⟩ []
    [⟨"sys1", .system, "hello world and more text", true, none, 10⟩] 5 rfl (by decide)

/-- Claim C4, counterexample: with an `instruction` sub-budget of 1 and two
3-token non-required instruction components that fit the shared pool, both
are included in full — the included instruction tokens sum to 6 > 1, so the
per-type sub-budget is not enforced for non-system types. -/
theorem buildPrompt_typeBudget_counterexample :
    (buildPrompt charTok ⟨100, none, some 1, none, none, none, none, none⟩ []
        [⟨"i1", .instruction, "aaa", false, none, 0⟩,
         ⟨"i2", .instruction, "bbb", false, none, 0⟩]).components.all
      (fun en => en.included) = true ∧
    ¬ (includedTokensWhere (fun t => t == PromptComponentType.instruction)
        (buildPrompt charTok ⟨100, none, some 1, none, none, none, none, none⟩ []
          [⟨"i1", .instruction, "aaa", false, none, 0⟩,
           ⟨"i2", .instruction, "bbb", false, none, 0⟩]).components ≤ 1) := by
  constructor
  · decide
  · decide

/-! Section: Climax selection (claim C7) -/

/-- Invariant of the best-score search loop: either the accumulator is
untouched, or it holds the earliest strictly-maximal scoring index of the
list; the final best score dominates the initial one and every visited
score. -/
theorem bestFold_spec (score : String → Nat) (ps : List String) :
    ∀ (L : List Nat) (b : Int) (h : Nat),
      ((L.foldl (bestStep score ps) (b, h) = (b, h)) ∨
        ∃ j ∈ L, (L.foldl (bestStep score ps) (b, h)).1 = (j : Int) ∧
          (L.foldl (bestStep score ps) (b, h)).2 = score (ps.getD j "") ∧
          h < (L.foldl (bestStep score ps) (b, h)).2) ∧
      h ≤ (L.foldl (bestStep score ps) (b, h)).2 ∧
      ∀ i ∈ L, score (ps.getD i "") ≤ (L.foldl (bestStep score ps) (b, h)).2 := by
  intro L
  induction L with
  | nil =>
    intro b h
    refine ⟨Or.inl rfl, le_refl h, ?_⟩
    intro i hi
    cases hi
  | cons i L ih =>
    intro b h
    rw [List.foldl_cons]
    by_cases hlt : h < score (ps.getD i "")
    · have hstep : bestStep score ps (b, h) i = ((i : Int), score (ps.getD i "")) :=
        if_pos hlt
      rw [hstep]
      obtain ⟨hd, hle, hall⟩ := ih (i : Int) (score (ps.getD i ""))
      refine ⟨?_, le_of_lt (lt_of_lt_of_le hlt hle), ?_⟩
      · rcases hd with heq | ⟨j, hjm, hj1, hj2, hj3⟩
        · right
          exact ⟨i, List.mem_cons_self i L, by rw [heq], by rw [heq], by rw [heq]; exact hlt⟩
        · right
          exact ⟨j, List.mem_cons_of_mem i hjm, hj1, hj2, lt_trans hlt hj3⟩
      · intro k hk
        rcases List.mem_cons.mp hk with rfl | hk
        · exact hle
        · exact hall k hk
    · have hstep : bestStep score ps (b, h) i = (b, h) := if_neg hlt
      rw [hstep]
      obtain ⟨hd, hle, hall⟩ := ih b h
      refine ⟨?_, hle, ?_⟩
      · rcases hd with heq | ⟨j, hjm, hj1, hj2, hj3⟩
        · exact Or.inl heq
        · exact Or.inr ⟨j, List.mem_cons_of_mem i hjm, hj1, hj2, hj3⟩
      · intro k hk
        rcases List.mem_cons.mp hk with rfl | hk
        · exact le_trans (Nat.le_of_not_lt hlt) hle
        · exact hall k hk

/-- Claim C7, amended: for a story with `N > 3` paragraphs, the climax
element carries the index returned by `findClimaxParagraph` over the
inclusive window `[floor(0.6 N), min(floor(0.9 N), N - 1)]` — the loop
condition `i <= endIdx` includes `floor(0.9 N)` itself, so the range is not
half-open — and either some visited paragraph scores positively and the
selected index lies in that inclusive window with a positive score, or
every visited paragraph scores 0 and the index falls back to
`min(floor(0.75 N), N - 1)`. -/
theorem findClimaxParagraph_rangeOrFallback (ps : List String) (hn : 3 < ps.length) :
    ((NEType.climax,
        (findClimaxParagraph ps (3 * ps.length / 5) (9 * ps.length / 10)).toNat) ∈
      (identifyNarrativeElements ps).map (fun el => (el.type, el.paragraphIndex))) ∧
    ((3 * ps.length / 5 ≤
        (findClimaxParagraph ps (3 * ps.length / 5) (9 * ps.length / 10)).toNat ∧
      (findClimaxParagraph ps (3 * ps.length / 5) (9 * ps.length / 10)).toNat ≤
        min (9 * ps.length / 10) (ps.length - 1) ∧
      0 < climaxScore (ps.getD
        (findClimaxParagraph ps (3 * ps.length / 5) (9 * ps.length / 10)).toNat "")) ∨
     (findClimaxParagraph ps (3 * ps.length / 5) (9 * ps.length / 10) =
        ((min (3 * ps.length / 4) (ps.length - 1) : Nat) : Int) ∧
      (climaxWindow ps (3 * ps.length / 5) (9 * ps.length / 10)).all
        (fun p => climaxScore p == 0) = true)) := by
  have h0 : 0 < ps.length := by omega
  have h1 : 1 < ps.length := by omega
  have h2 : 2 < ps.length := by omega
  have hmem : findClimaxParagraph ps (3 * ps.length / 5) (9 * ps.length / 10) ≠ -1 →
      (NEType.climax,
        (findClimaxParagraph ps (3 * ps.length / 5) (9 * ps.length / 10)).toNat) ∈
        (identifyNarrativeElements ps).map (fun el => (el.type, el.paragraphIndex)) := by
    intro hne
    have helem : mkElement ps
        (findClimaxParagraph ps (3 * ps.length / 5) (9 * ps.length / 10)).toNat
        NEType.climax 10 ∈ identifyNarrativeElements ps := by
      simp [identifyNarrativeElements, h0, h1, h2, hn, hne]
    exact List.mem_map_of_mem _ helem
  have hunfold : findClimaxParagraph ps (3 * ps.length / 5) (9 * ps.length / 10) =
      if ((loopIdxs ps.length (3 * ps.length / 5) (9 * ps.length / 10)).foldl
          (bestStep climaxScore ps) (-1, 0)).1 = -1 then
        min ((3 * ps.length / 4 : Nat) : Int) ((ps.length : Int) - 1)
      else ((loopIdxs ps.length (3 * ps.length / 5) (9 * ps.length / 10)).foldl
          (bestStep climaxScore ps) (-1, 0)).1 := rfl
  obtain ⟨hd, hle, hall⟩ := bestFold_spec climaxScore ps
    (loopIdxs ps.length (3 * ps.length / 5) (9 * ps.length / 10)) (-1) 0
  rcases hd with heq | ⟨j, hjm, hj1, hj2, hj3⟩
  · -- no visited paragraph improved on score 0: the fallback fires
    have hfc : findClimaxParagraph ps (3 * ps.length / 5) (9 * ps.length / 10) =
        min ((3 * ps.length / 4 : Nat) : Int) ((ps.length : Int) - 1) := by
      rw [hunfold, heq]
      exact if_pos rfl
    have hcast : ((min (3 * ps.length / 4) (ps.length - 1) : Nat) : Int) =
        min ((3 * ps.length / 4 : Nat) : Int) ((ps.length : Int) - 1) := by
      push_cast
      omega
    have hne : findClimaxParagraph ps (3 * ps.length / 5) (9 * ps.length / 10) ≠ -1 := by
      rw [hfc]
      omega
    refine ⟨hmem hne, Or.inr ⟨by rw [hfc, hcast], ?_⟩⟩
    rw [List.all_eq_true]
    intro p hp
    rw [climaxWindow] at hp
    obtain ⟨i, hi, rfl⟩ := List.mem_map.mp hp
    have hsc := hall i hi
    rw [heq] at hsc
    simp only [Nat.le_zero] at hsc
    simpa using hsc
  · -- some paragraph scored: the loop's best index is returned
    rw [loopIdxs, List.mem_range'_1] at hjm
    have hfc : findClimaxParagraph ps (3 * ps.length / 5) (9 * ps.length / 10) = (j : Int) := by
      rw [hunfold, hj1, if_neg (by omega)]
    have hne : findClimaxParagraph ps (3 * ps.length / 5) (9 * ps.length / 10) ≠ -1 := by
      rw [hfc]
      omega
    have htn : (findClimaxParagraph ps (3 * ps.length / 5) (9 * ps.length / 10)).toNat = j := by
      rw [hfc]
      omega
    refine ⟨hmem hne, Or.inl ⟨?_, ?_, ?_⟩⟩
    · rw [htn]
      omega
    · rw [htn]
      omega
    · rw [htn, ← hj2]
      exact hj3

/-- Witness for the amended claim C7 at the concrete four-paragraph story
`["Aa.", "Bb.", "Cc.", "Dd."]` (climax window scores all zero, fallback
index 3). -/
theorem findClimaxParagraph_rangeOrFallback_witness :
    ((NEType.climax,
        (findClimaxParagraph ["Aa.", "Bb.", "Cc.", "Dd."]
          (3 * (["Aa.", "Bb.", "Cc.", "Dd."] : List String).length / 5)
          (9 * (["Aa.", "Bb.", "Cc.", "Dd."] : List String).length / 10)).toNat) ∈
      (identifyNarrativeElements ["Aa.", "Bb.", "Cc.", "Dd."]).map
        (fun el => (el.type, el.paragraphIndex))) ∧
    ((3 * (["Aa.", "Bb.", "Cc.", "Dd."] : List String).length / 5 ≤
        (findClimaxParagraph ["Aa.", "Bb.", "Cc.", "Dd."]
          (3 * (["Aa.", "Bb.", "Cc.", "Dd."] : List String).length / 5)
          (9 * (["Aa.", "Bb.", "Cc.", "Dd."] : List String).length / 10)).toNat ∧
      (findClimaxParagraph ["Aa.", "Bb.", "Cc.", "Dd."]
          (3 * (["Aa.", "Bb.", "Cc.", "Dd."] : List String).length / 5)
          (9 * (["Aa.", "Bb.", "Cc.", "Dd."] : List String).length / 10)).toNat ≤
        min (9 * (["Aa.", "Bb.", "Cc.", "Dd."] : List String).length / 10)
          ((["Aa.", "Bb.", "Cc.", "Dd."] : List String).length - 1) ∧
      0 < climaxScore ((["Aa.", "Bb.", "Cc.", "Dd."] : List String).getD
        (findClimaxParagraph ["Aa.", "Bb.", "Cc.", "Dd."]
          (3 * (["Aa.", "Bb.", "Cc.", "Dd."] : List String).length / 5)
          (9 * (["Aa.", "Bb.", "Cc.", "Dd."] : List String).length / 10)).toNat "")) ∨
     (findClimaxParagraph ["Aa.", "Bb.", "Cc.", "Dd."]
          (3 * (["Aa.", "Bb.", "Cc.", "Dd."] : List String).length / 5)
          (9 * (["Aa.", "Bb.", "Cc.", "Dd."] : List String).length / 10) =
        ((min (3 * (["Aa.", "Bb.", "Cc.", "Dd."] : List String).length / 4)
          ((["Aa.", "Bb.", "Cc.", "Dd."] : List String).length - 1) : Nat) : Int) ∧
      (climaxWindow ["Aa.", "Bb.", "Cc.", "Dd."]
          (3 * (["Aa.", "Bb.", "Cc.", "Dd."] : List String).length / 5)
          (9 * (["Aa.", "Bb.", "Cc.", "Dd."] : List String).length / 10)).all
        (fun p => climaxScore p == 0) = true)) :=
  findClimaxParagraph_rangeOrFallback ["Aa.", "Bb.", "Cc.", "Dd."] (by decide)

/-- Claim C7, counterexample: in a ten-paragraph story whose only climax
keyword sits in the last paragraph (index 9), every paragraph of the
half-open range `[6, 9)` scores 0, so the claim requires the 75th-percentile
fallback index `min(floor(7.5), 9) = 7`; the code instead visits index 9
(the loop bound is inclusive) and selects it as the climax. -/
theorem findClimaxParagraph_halfOpen_counterexample :
    climaxScore "Gg." = 0 ∧ climaxScore "Hh." = 0 ∧ climaxScore "Ii." = 0 ∧
    findClimaxParagraph
      ["Aa.", "Bb.", "Cc.", "Dd.", "Ee.", "Ff.", "Gg.", "Hh.", "Ii.", "They finally won."]
      6 9 = 9 ∧
    ((NEType.climax, 9) ∈ (identifyNarrativeElements
      ["Aa.", "Bb.", "Cc.", "Dd.", "Ee.", "Ff.", "Gg.", "Hh.", "Ii.", "They finally won."]).map
        (fun el => (el.type, el.paragraphIndex))) ∧
    (9 : Int) ≠ ((min (3 * 10 / 4) (10 - 1) : Nat) : Int) := by
  refine ⟨by decide, by decide, by decide, by decide, by decide, by decide⟩

end Storybook
